import Mathlib

/-!
Shallow embedding of `src/net/udp_framed.rs` (the `UdpFramed<C>` adapter):
a unified Stream/Sink over a UDP socket that, unlike the upstream tokio
version, does not end the sink on a hard send error but instead removes the
offending peer from the shared `State` registry.

The socket and the codec are external collaborators; each operation takes
the socket's tri-state answer ({completed, would-block, hard-error}) and the
codec's decode/encode functions as explicit oracle parameters.  The shared
`State` registry is modelled as a log of the addresses passed to
`remove_peer`, appended in call order.  Byte buffers (`BytesMut`) are
modelled by their content as `List Nat`; capacity reservation does not
change content and is not modelled.
-/

/-- The kind of a `std::io::Error`: `WouldBlock` versus any other (hard) kind. -/
inductive IoErrorKind where
  | wouldBlock
  | other (code : Nat)
deriving DecidableEq

/-- A `std::io::Error`, reduced to its kind (the only part the code inspects). -/
structure IoError where
  kind : IoErrorKind
deriving DecidableEq

/-- An IP address, `std::net::IpAddr`: V4 of four octets or V6 of eight segments. -/
inductive IpAddr where
  | v4 (a b c d : Nat)
  | v6 (segs : List Nat)
deriving DecidableEq

/-- A `std::net::SocketAddr`: an IP address paired with a port. -/
structure SocketAddr where
  ip : IpAddr
  port : Nat
deriving DecidableEq

/-- Modelled from the spec: the address-normalization utility `to_ipv6`
(`utils::to_ipv6`, not part of the shown source) maps a socket address of any
family to the canonical IPv6 form used as the Peer Registry key: a V4 address
becomes the corresponding IPv4-mapped IPv6 address, a V6 address is kept. -/
def to_ipv6 (a : SocketAddr) : SocketAddr :=
  match a.ip with
  | .v4 x y z w => { ip := .v6 [0, 0, 0, 0, 0, 65535, x * 256 + y, z * 256 + w], port := a.port }
  | .v6 s => { ip := .v6 s, port := a.port }

/-- `futures::Async`: `Ready(a)` or `NotReady`. -/
inductive Async (α : Type) where
  | ready (a : α)
  | notReady
deriving DecidableEq

/-- `futures::AsyncSink`: a `start_send` either accepts the item (`Ready`) or
gives it back (`NotReady(item)`). -/
inductive AsyncSink (α : Type) where
  | ready
  | notReady (item : α)
deriving DecidableEq

/-- The socket's answer to `poll_recv_from`: the tri-state
{datagram of these bytes from this address, would-block, hard error}.
(tokio's `poll_recv_from` reports `WouldBlock` as `NotReady`, so `err` is a
hard I/O error.) -/
inductive RecvFromResult where
  | notReady
  | ready (data : List Nat) (addr : SocketAddr)
  | err (e : IoError)

/-- The socket's answer to `poll_send_to`: `Ready(n)` with the byte count,
`NotReady`, or an I/O error (whose kind the caller inspects for `WouldBlock`). -/
inductive SendToResult where
  | notReady
  | ready (n : Nat)
  | err (e : IoError)

/-- `send.blocks` holds when the flush attempt would block: the socket answered
`NotReady`, or an error of kind `WouldBlock`. -/
def SendToResult.blocks : SendToResult → Bool
  | .notReady => true
  | .ready _ => false
  | .err e => e.kind == IoErrorKind.wouldBlock

/-- The state of `UdpFramed<C>` (udp_framed.rs lines 34-42): receive buffer
`rd`, send buffer `wr`, destination slot `out_addr`, the `flushed` flag, and
the registry log `removed` standing for the shared `node_state` (each
`remove_peer(a)` call appends `a`).  The socket and codec are oracle
parameters of the operations, not state. -/
structure UdpFramed where
  rd : List Nat
  wr : List Nat
  out_addr : SocketAddr
  flushed : Bool
  removed : List SocketAddr
deriving DecidableEq

/-- `UdpFramed::new` (lines 135-145): empty buffers, destination slot
`0.0.0.0:0`, `flushed = true`, and no registry calls made yet. -/
def UdpFramed.new : UdpFramed :=
  { rd := []
    wr := []
    out_addr := { ip := .v4 0 0 0 0, port := 0 }
    flushed := true
    removed := [] }

/-- `Stream::poll` (lines 48-64).  `recv` is the socket's answer to
`poll_recv_from`; `d` is `codec.decode`, taking the buffer content and
returning the decode result together with the buffer as the decoder left it
(`decode` takes `&mut self.rd`); `liftErr` is the `From<io::Error>`
conversion into the codec error type applied by `try_ready!`.
On a received datagram the bytes are appended to `rd` (`advance_mut`), the
decoder is invoked once on the filled buffer, and `rd.clear()` runs before
the decode result is inspected, so the state has `rd = []` on every decode
outcome and whatever the decoder left in the buffer is discarded. -/
def UdpFramed.poll {I E : Type} (s : UdpFramed) (recv : RecvFromResult)
    (d : List Nat → Except E (Option I) × List Nat)
    (liftErr : IoError → E) :
    Except E (Async (Option (I × SocketAddr))) × UdpFramed :=
  match recv with
  | .err e => (.error (liftErr e), s)
  | .notReady => (.ok .notReady, s)
  | .ready data addr =>
      match d (s.rd ++ data) with
      | (.error e, _) => (.error e, { s with rd := [] })
      | (.ok frame, _) =>
          (.ok (.ready (frame.map (fun f => (f, addr)))), { s with rd := [] })

/-- `Sink::poll_complete` (lines 90-120).  `send` is the socket's answer to
`poll_send_to(&self.wr, &self.out_addr)`.  If `flushed` is already true this
is a ready no-op.  On `Ready(n)` the buffer is cleared and `flushed` set
(regardless of `n`; the partial-write comparison only feeds a debug log).
On an error of kind `WouldBlock` it is `NotReady`.  On any other error the
peer `to_ipv6(out_addr)` is removed from the registry and the call falls
through to `Ready(())` with `wr` and `flushed` untouched. -/
def UdpFramed.poll_complete {E : Type} (s : UdpFramed) (send : SendToResult) :
    Except E (Async Unit) × UdpFramed :=
  if s.flushed then
    (.ok (.ready ()), s)
  else
    match send with
    | .notReady => (.ok .notReady, s)
    | .ready _ => (.ok (.ready ()), { s with wr := [], flushed := true })
    | .err e =>
        if e.kind = IoErrorKind.wouldBlock then
          (.ok .notReady, s)
        else
          (.ok (.ready ()), { s with removed := s.removed ++ [to_ipv6 s.out_addr] })

/-- The tail of `start_send` (lines 81-87): encode the frame into the send
buffer (`enc` returns the encode outcome together with the buffer content it
leaves behind, since `encode` takes `&mut self.wr`); an encode error is
returned by `?` before `out_addr` and `flushed` are written, while on success
the destination is recorded and `flushed` is cleared. -/
def UdpFramed.encodeFrame {O E : Type} (s : UdpFramed) (item : O × SocketAddr)
    (enc : O → List Nat → Except E Unit × List Nat) :
    Except E (AsyncSink (O × SocketAddr)) × UdpFramed :=
  match enc item.1 s.wr with
  | (.error e, wr1) => (.error e, { s with wr := wr1 })
  | (.ok _, wr1) =>
      (.ok .ready, { s with wr := wr1, out_addr := item.2, flushed := false })

/-- `Sink::start_send` (lines 71-88).  If `flushed` is false the previous
frame is still owed: `poll_complete` runs first (consulting the `send`
oracle); `NotReady` hands the item back unchanged, an error propagates via
`try!`, and only `Ready` proceeds to encode.  If `flushed` is true the socket
is not consulted at all. -/
def UdpFramed.start_send {O E : Type} (s : UdpFramed) (item : O × SocketAddr)
    (send : SendToResult)
    (enc : O → List Nat → Except E Unit × List Nat) :
    Except E (AsyncSink (O × SocketAddr)) × UdpFramed :=
  if s.flushed then
    UdpFramed.encodeFrame s item enc
  else
    match UdpFramed.poll_complete (E := E) s send with
    | (.error e, s1) => (.error e, s1)
    | (.ok .notReady, s1) => (.ok (.notReady item), s1)
    | (.ok (.ready _), s1) => UdpFramed.encodeFrame s1 item enc

/-- `Sink::close` (lines 122-125): a final `poll_complete` via `try_ready!`
(propagating `NotReady` and errors), then `Ready(())`. -/
def UdpFramed.close {E : Type} (s : UdpFramed) (send : SendToResult) :
    Except E (Async Unit) × UdpFramed :=
  match UdpFramed.poll_complete (E := E) s send with
  | (.error e, s1) => (.error e, s1)
  | (.ok .notReady, s1) => (.ok .notReady, s1)
  | (.ok (.ready _), s1) => (.ok (.ready ()), s1)

/-! ## Concrete fixtures used by witnesses and counterexamples -/

/-- A concrete peer address. -/
def addrA : SocketAddr := { ip := .v4 10 0 0 1, port := 9000 }

/-- A second concrete peer address. -/
def addrB : SocketAddr := { ip := .v4 192 168 0 2, port := 4000 }

/-- A concrete hard (non-`WouldBlock`) I/O error. -/
def hardErr : IoError := { kind := .other 0 }

/-- A concrete adapter state with one encoded frame pending in the send
buffer, destined for `addrA`. -/
def pendingState : UdpFramed :=
  { rd := [], wr := [1, 2, 3], out_addr := addrA, flushed := false, removed := [] }

/-- A concrete well-behaved encoder over `Nat` frames: appends one byte. -/
def encOk : Nat → List Nat → Except Nat Unit × List Nat :=
  fun f b => (.ok (), b ++ [f])

/-- A concrete misbehaving encoder: appends a stray byte and then fails. -/
def encAppendErr : Nat → List Nat → Except Nat Unit × List Nat :=
  fun _ b => (.error 3, b ++ [9])

/-! ## Claims -/

/-- C1: a flush whose `poll_send_to` ends in a hard I/O error (kind other
than `WouldBlock`) does not return a sink error: `poll_complete` reports
`Ready(())` and appends exactly one `remove_peer` call with the normalized
(`to_ipv6`) form of the recorded destination address. -/
theorem poll_complete_hard_error_removes_peer {E : Type} (s : UdpFramed)
    (e : IoError) (hf : s.flushed = false) (hk : e.kind ≠ IoErrorKind.wouldBlock) :
    UdpFramed.poll_complete (E := E) s (.err e) =
      (.ok (.ready ()), { s with removed := s.removed ++ [to_ipv6 s.out_addr] }) := by
  simp [UdpFramed.poll_complete, hf, hk]

/-- Witness for C1 at a concrete pending state and hard error. -/
theorem poll_complete_hard_error_removes_peer_witness :
    UdpFramed.poll_complete (E := Nat) pendingState (.err hardErr) =
      (.ok (.ready ()),
       { pendingState with removed := pendingState.removed ++ [to_ipv6 pendingState.out_addr] }) :=
  poll_complete_hard_error_removes_peer pendingState hardErr rfl (by decide)

/-- C2 counterexample: after a hard send error the adapter state is NOT left
as if the send completed — at a concrete pending state, `flushed` is still
false and the send buffer still holds the encoded frame. -/
theorem poll_complete_hard_error_state_counterexample :
    (UdpFramed.poll_complete (E := Nat) pendingState (.err hardErr)).2.flushed = false ∧
    (UdpFramed.poll_complete (E := Nat) pendingState (.err hardErr)).2.wr = [1, 2, 3] :=
  ⟨rfl, rfl⟩

/-- C2 amended: after a flush attempt ends in a hard I/O error,
`poll_complete` reports `Ready(())` but leaves `flushed` false, the send
buffer unchanged (still holding the encoded frame) and the destination slot
unchanged; a subsequent `start_send` therefore first re-attempts the failed
transmission (here: against a blocking socket it hands the item back). -/
theorem poll_complete_hard_error_keeps_unflushed {E : Type} (s : UdpFramed)
    (e : IoError) (hf : s.flushed = false) (hk : e.kind ≠ IoErrorKind.wouldBlock) :
    (UdpFramed.poll_complete (E := E) s (.err e)).1 = .ok (.ready ()) ∧
    (UdpFramed.poll_complete (E := E) s (.err e)).2.flushed = false ∧
    (UdpFramed.poll_complete (E := E) s (.err e)).2.wr = s.wr ∧
    (UdpFramed.poll_complete (E := E) s (.err e)).2.out_addr = s.out_addr ∧
    (∀ (O : Type) (item : O × SocketAddr) (enc : O → List Nat → Except E Unit × List Nat),
      UdpFramed.start_send ((UdpFramed.poll_complete (E := E) s (.err e)).2) item .notReady enc =
        (.ok (.notReady item), (UdpFramed.poll_complete (E := E) s (.err e)).2)) := by
  have hpc : UdpFramed.poll_complete (E := E) s (.err e) =
      (.ok (.ready ()), { s with removed := s.removed ++ [to_ipv6 s.out_addr] }) := by
    simp [UdpFramed.poll_complete, hf, hk]
  refine ⟨by rw [hpc], by rw [hpc]; exact hf, by rw [hpc], by rw [hpc], ?_⟩
  intro O item enc
  rw [hpc]
  simp [UdpFramed.start_send, UdpFramed.poll_complete, hf]

/-- Witness for the amended C2 at the concrete pending state. -/
theorem poll_complete_hard_error_keeps_unflushed_witness :
    (UdpFramed.poll_complete (E := Nat) pendingState (.err hardErr)).1 = .ok (.ready ()) ∧
    (UdpFramed.poll_complete (E := Nat) pendingState (.err hardErr)).2.wr = pendingState.wr ∧
    UdpFramed.start_send ((UdpFramed.poll_complete (E := Nat) pendingState (.err hardErr)).2)
        ((5 : Nat), addrB) .notReady encOk =
      (.ok (.notReady ((5 : Nat), addrB)),
       (UdpFramed.poll_complete (E := Nat) pendingState (.err hardErr)).2) :=
  ⟨(poll_complete_hard_error_keeps_unflushed pendingState hardErr rfl (by decide)).1,
   (poll_complete_hard_error_keeps_unflushed pendingState hardErr rfl (by decide)).2.2.1,
   (poll_complete_hard_error_keeps_unflushed pendingState hardErr rfl (by decide)).2.2.2.2
     Nat ((5 : Nat), addrB) encOk⟩

/-- C5: a `start_send` issued while `flushed` is false first attempts a
flush; when that flush would block (socket `NotReady`, or an error of kind
`WouldBlock`), the item is handed back via `AsyncSink.NotReady` and the
adapter state — in particular the send buffer holding the one pending
frame — is completely unchanged. -/
theorem start_send_unflushed_wouldblock_not_ready {O E : Type} (s : UdpFramed)
    (item : O × SocketAddr) (send : SendToResult)
    (enc : O → List Nat → Except E Unit × List Nat)
    (hf : s.flushed = false) (hb : send.blocks = true) :
    UdpFramed.start_send s item send enc = (.ok (.notReady item), s) := by
  cases send with
  | notReady => simp [UdpFramed.start_send, UdpFramed.poll_complete, hf]
  | ready n => simp [SendToResult.blocks] at hb
  | err e =>
      have hk : e.kind = IoErrorKind.wouldBlock := by
        simpa [SendToResult.blocks] using hb
      simp [UdpFramed.start_send, UdpFramed.poll_complete, hf, hk]

/-- Witness for C5: a second frame submitted at the concrete pending state
against a blocking socket is handed back and the buffer is untouched. -/
theorem start_send_unflushed_wouldblock_not_ready_witness :
    UdpFramed.start_send pendingState ((5 : Nat), addrB) .notReady encOk =
      (.ok (.notReady ((5 : Nat), addrB)), pendingState) :=
  start_send_unflushed_wouldblock_not_ready pendingState ((5 : Nat), addrB)
    .notReady encOk rfl rfl

/-- C6: when the socket reports `Ready(n)` for a flush, the send buffer is
cleared and `flushed` becomes true for every `n` — also when `n` is strictly
below the buffer length — and the overall result is `Ready(())`, not an
error; nothing is kept for a retry. -/
theorem poll_complete_partial_write_clears_buffer {E : Type} (s : UdpFramed)
    (n : Nat) (hf : s.flushed = false) :
    UdpFramed.poll_complete (E := E) s (.ready n) =
      (.ok (.ready ()), { s with wr := [], flushed := true }) := by
  simp [UdpFramed.poll_complete, hf]

/-- Witness for C6 with a genuinely partial write: 1 byte reported against a
3-byte buffer. -/
theorem poll_complete_partial_write_clears_buffer_witness :
    1 < pendingState.wr.length ∧
    UdpFramed.poll_complete (E := Nat) pendingState (.ready 1) =
      (.ok (.ready ()), { pendingState with wr := [], flushed := true }) :=
  ⟨by decide, poll_complete_partial_write_clears_buffer pendingState 1 rfl⟩

/-- C9: if the codec's `encode` fails during a `start_send` entered with
`flushed` true, the error is returned with `flushed` still true and the
destination slot unchanged (both are only written after a successful
encode); only the send buffer may carry whatever bytes the encoder left. -/
theorem start_send_encode_error_preserves_flags {O E : Type} (s : UdpFramed)
    (item : O × SocketAddr) (send : SendToResult)
    (enc : O → List Nat → Except E Unit × List Nat) (e : E)
    (hf : s.flushed = true) (he : (enc item.1 s.wr).1 = .error e) :
    UdpFramed.start_send s item send enc =
      (.error e, { s with wr := (enc item.1 s.wr).2 }) := by
  rcases h : enc item.1 s.wr with ⟨r, wr1⟩
  rw [h] at he
  simp only at he
  subst he
  simp [UdpFramed.start_send, UdpFramed.encodeFrame, hf, h]

/-- Witness for C9: the misbehaving encoder fails on a fresh adapter; the
error surfaces, `flushed` stays true, the destination slot stays the zero
sentinel, and only the stray byte remains in the buffer. -/
theorem start_send_encode_error_preserves_flags_witness :
    UdpFramed.start_send UdpFramed.new ((5 : Nat), addrA) .notReady encAppendErr =
      (.error 3, { UdpFramed.new with wr := (encAppendErr 5 UdpFramed.new.wr).2 }) :=
  start_send_encode_error_preserves_flags UdpFramed.new ((5 : Nat), addrA)
    .notReady encAppendErr 3 rfl rfl

/-- Characterization of `poll` on a received datagram: the outcome is a
function of one decode of the filled buffer, and the state has `rd` cleared
on every decode outcome. -/
theorem poll_ready_eq {I E : Type} (s : UdpFramed) (data : List Nat)
    (addr : SocketAddr) (d : List Nat → Except E (Option I) × List Nat)
    (liftErr : IoError → E) :
    UdpFramed.poll s (.ready data addr) d liftErr =
      ((match (d (s.rd ++ data)).1 with
        | .error e => .error e
        | .ok frame => .ok (.ready (frame.map (fun f => (f, addr))))),
       { s with rd := [] }) := by
  rcases h : d (s.rd ++ data) with ⟨r, b⟩
  cases r <;> simp [UdpFramed.poll, h]

/-- C3: a poll that receives a datagram makes exactly one decode attempt on
the received bytes (the outcome is determined by one application of the
decoder to the filled buffer) and clears the receive buffer regardless of
whether the decode errs, yields no frame, or yields a frame; consequently a
later poll's decoder sees only its own datagram's bytes. -/
theorem poll_recv_single_decode_and_clear {I E : Type} (s : UdpFramed)
    (data : List Nat) (addr : SocketAddr)
    (d : List Nat → Except E (Option I) × List Nat) (liftErr : IoError → E) :
    (UdpFramed.poll s (.ready data addr) d liftErr).2.rd = [] ∧
    (UdpFramed.poll s (.ready data addr) d liftErr).1 =
      (match (d (s.rd ++ data)).1 with
       | .error e => .error e
       | .ok frame => .ok (.ready (frame.map (fun f => (f, addr))))) ∧
    (∀ (I2 : Type) (data2 : List Nat) (addr2 : SocketAddr)
        (d2 : List Nat → Except E (Option I2) × List Nat),
      (UdpFramed.poll (UdpFramed.poll s (.ready data addr) d liftErr).2
          (.ready data2 addr2) d2 liftErr).1 =
        (match (d2 data2).1 with
         | .error e => .error e
         | .ok frame => .ok (.ready (frame.map (fun f => (f, addr2)))))) := by
  refine ⟨by rw [poll_ready_eq], by rw [poll_ready_eq], ?_⟩
  intro I2 data2 addr2 d2
  rcases hd : d (s.rd ++ data) with ⟨r, b⟩
  rcases hd2 : d2 data2 with ⟨r2, b2⟩
  have hd2b : d2 (([] : List Nat) ++ data2) = (r2, b2) := by simpa using hd2
  cases r <;> cases r2 <;> simp [UdpFramed.poll, hd, hd2, hd2b]

/-- C4: when the decoder yields no frame for the datagram, the poll produces
`Ready(None)` (the "no frame yet" outcome of this code path) with the
receive buffer cleared and nothing else changed — not an error; when it
yields a frame, the item is the pair (frame, source address). -/
theorem poll_decode_none_yields_no_frame {I E : Type} (s : UdpFramed)
    (data : List Nat) (addr : SocketAddr)
    (d : List Nat → Except E (Option I) × List Nat) (liftErr : IoError → E) :
    ((d (s.rd ++ data)).1 = .ok none →
      UdpFramed.poll s (.ready data addr) d liftErr =
        (.ok (.ready none), { s with rd := [] })) ∧
    (∀ f : I, (d (s.rd ++ data)).1 = .ok (some f) →
      UdpFramed.poll s (.ready data addr) d liftErr =
        (.ok (.ready (some (f, addr))), { s with rd := [] })) := by
  constructor
  · intro hnone
    rw [poll_ready_eq, hnone]
    rfl
  · intro f hsome
    rw [poll_ready_eq, hsome]
    rfl

/-- Witness for C4: on a fresh adapter, a none-decoding codec produces
`Ready(None)` and a frame-decoding codec produces the (frame, source) pair. -/
theorem poll_decode_none_yields_no_frame_witness :
    UdpFramed.poll UdpFramed.new (.ready [1, 2] addrA)
        (fun b => ((Except.ok none : Except Nat (Option Nat)), b)) (fun _ => 0) =
      (.ok (.ready none), { UdpFramed.new with rd := [] }) ∧
    UdpFramed.poll UdpFramed.new (.ready [1, 2] addrA)
        (fun b => ((Except.ok (some 5) : Except Nat (Option Nat)), b)) (fun _ => 0) =
      (.ok (.ready (some (5, addrA))), { UdpFramed.new with rd := [] }) :=
  ⟨(poll_decode_none_yields_no_frame UdpFramed.new [1, 2] addrA
      (fun b => ((Except.ok none : Except Nat (Option Nat)), b)) (fun _ => 0)).1 rfl,
   (poll_decode_none_yields_no_frame UdpFramed.new [1, 2] addrA
      (fun b => ((Except.ok (some 5) : Except Nat (Option Nat)), b)) (fun _ => 0)).2 5 rfl⟩

/-- C7: a hard I/O error reported by the socket's receive is propagated to
the caller as the stream's error (converted by the `From<io::Error>` lift),
with the adapter state untouched — in contrast to the send side, where
`poll_complete` never returns an error for any socket answer. -/
theorem poll_recv_hard_error_propagates {I E : Type} (s : UdpFramed)
    (e : IoError) (d : List Nat → Except E (Option I) × List Nat)
    (liftErr : IoError → E) (_hk : e.kind ≠ IoErrorKind.wouldBlock) :
    UdpFramed.poll s (.err e) d liftErr = (.error (liftErr e), s) ∧
    (∀ (s2 : UdpFramed) (send : SendToResult) (e2 : E),
      (UdpFramed.poll_complete (E := E) s2 send).1 ≠ .error e2) := by
  refine ⟨rfl, ?_⟩
  intro s2 send e2
  cases send <;> simp [UdpFramed.poll_complete] <;> split_ifs <;> simp

/-- Witness for C7 at a concrete state, hard error and error lift. -/
theorem poll_recv_hard_error_propagates_witness :
    UdpFramed.poll pendingState (.err hardErr)
        (fun b => ((Except.ok none : Except Nat (Option Nat)), b)) (fun _ => 7) =
      (.error 7, pendingState) ∧
    (UdpFramed.poll_complete (E := Nat) pendingState .notReady).1 ≠ .error 7 :=
  ⟨(poll_recv_hard_error_propagates pendingState hardErr
      (fun b => ((Except.ok none : Except Nat (Option Nat)), b)) (fun _ => 7)
      (by decide)).1,
   (poll_recv_hard_error_propagates pendingState hardErr
      (fun b => ((Except.ok none : Except Nat (Option Nat)), b)) (fun _ => 7)
      (by decide)).2 pendingState .notReady 7⟩

/-- C10: a poll never touches the send side: for every socket answer and
every decoder, the send buffer, the destination slot, the `flushed` flag and
the registry log are unchanged. -/
theorem poll_preserves_send_state {I E : Type} (s : UdpFramed)
    (recv : RecvFromResult) (d : List Nat → Except E (Option I) × List Nat)
    (liftErr : IoError → E) :
    (UdpFramed.poll s recv d liftErr).2.wr = s.wr ∧
    (UdpFramed.poll s recv d liftErr).2.out_addr = s.out_addr ∧
    (UdpFramed.poll s recv d liftErr).2.flushed = s.flushed ∧
    (UdpFramed.poll s recv d liftErr).2.removed = s.removed := by
  cases recv with
  | err e => simp [UdpFramed.poll]
  | notReady => simp [UdpFramed.poll]
  | ready data addr =>
      rcases h : d (s.rd ++ data) with ⟨r, b⟩
      cases r <;> simp [UdpFramed.poll, h]

/-! ## The flushed/buffer invariant (C8) -/

/-- One driven operation of the adapter, as a step relation: a poll with any
socket answer and decoder, a `start_send` with any item, socket answer and
encoder that leaves the buffer unchanged when it fails, a `poll_complete`
with any socket answer, or a `close`. -/
inductive Step : UdpFramed → UdpFramed → Prop where
  | poll {I E : Type} (s : UdpFramed) (recv : RecvFromResult)
      (d : List Nat → Except E (Option I) × List Nat) (liftErr : IoError → E) :
      Step s (UdpFramed.poll s recv d liftErr).2
  | start_send {O E : Type} (s : UdpFramed) (item : O × SocketAddr)
      (send : SendToResult) (enc : O → List Nat → Except E Unit × List Nat)
      (henc : ∀ (f : O) (b : List Nat) (e : E),
        (enc f b).1 = .error e → (enc f b).2 = b) :
      Step s (UdpFramed.start_send s item send enc).2
  | poll_complete {E : Type} (s : UdpFramed) (send : SendToResult) :
      Step s (UdpFramed.poll_complete (E := E) s send).2
  | close {E : Type} (s : UdpFramed) (send : SendToResult) :
      Step s (UdpFramed.close (E := E) s send).2

/-- States reachable from a fresh adapter by driven operations. -/
def Reachable (s : UdpFramed) : Prop :=
  Relation.ReflTransGen Step UdpFramed.new s

/-- `poll_complete` preserves "flushed implies empty send buffer". -/
theorem poll_complete_preserves_inv {E : Type} (s : UdpFramed)
    (send : SendToResult) (h : s.flushed = true → s.wr = []) :
    (UdpFramed.poll_complete (E := E) s send).2.flushed = true →
      (UdpFramed.poll_complete (E := E) s send).2.wr = [] := by
  by_cases hf : s.flushed
  · simpa [UdpFramed.poll_complete, hf] using h
  · cases send with
    | notReady => simp [UdpFramed.poll_complete, hf]
    | ready n => simp [UdpFramed.poll_complete, hf]
    | err e =>
        by_cases hk : e.kind = IoErrorKind.wouldBlock <;>
          simp [UdpFramed.poll_complete, hf, hk]

/-- `encodeFrame` preserves the invariant for encoders that leave the buffer
unchanged on failure. -/
theorem encodeFrame_preserves_inv {O E : Type} (s : UdpFramed)
    (item : O × SocketAddr) (enc : O → List Nat → Except E Unit × List Nat)
    (henc : ∀ (f : O) (b : List Nat) (e : E),
      (enc f b).1 = .error e → (enc f b).2 = b)
    (h : s.flushed = true → s.wr = []) :
    (UdpFramed.encodeFrame s item enc).2.flushed = true →
      (UdpFramed.encodeFrame s item enc).2.wr = [] := by
  rcases he : enc item.1 s.wr with ⟨r, wr1⟩
  cases r with
  | error e =>
      have hwr : wr1 = s.wr := by
        have := henc item.1 s.wr e (by rw [he])
        rw [he] at this
        exact this
      simp [UdpFramed.encodeFrame, he, hwr]
      intro hc
      exact h hc
  | ok u => simp [UdpFramed.encodeFrame, he]

/-- `start_send` preserves the invariant for well-behaved encoders. -/
theorem start_send_preserves_inv {O E : Type} (s : UdpFramed)
    (item : O × SocketAddr) (send : SendToResult)
    (enc : O → List Nat → Except E Unit × List Nat)
    (henc : ∀ (f : O) (b : List Nat) (e : E),
      (enc f b).1 = .error e → (enc f b).2 = b)
    (h : s.flushed = true → s.wr = []) :
    (UdpFramed.start_send s item send enc).2.flushed = true →
      (UdpFramed.start_send s item send enc).2.wr = [] := by
  by_cases hf : s.flushed
  · have := encodeFrame_preserves_inv s item enc henc h
    simpa [UdpFramed.start_send, hf] using this
  · have hpc := poll_complete_preserves_inv (E := E) s send h
    rcases hp : UdpFramed.poll_complete (E := E) s send with ⟨res, s1⟩
    rw [hp] at hpc
    cases res with
    | error e => simpa [UdpFramed.start_send, hf, hp] using hpc
    | ok a =>
        cases a with
        | notReady => simpa [UdpFramed.start_send, hf, hp] using hpc
        | ready u =>
            have := encodeFrame_preserves_inv s1 item enc henc hpc
            simpa [UdpFramed.start_send, hf, hp] using this

/-- `close` preserves the invariant. -/
theorem close_preserves_inv {E : Type} (s : UdpFramed) (send : SendToResult)
    (h : s.flushed = true → s.wr = []) :
    (UdpFramed.close (E := E) s send).2.flushed = true →
      (UdpFramed.close (E := E) s send).2.wr = [] := by
  have hpc := poll_complete_preserves_inv (E := E) s send h
  rcases hp : UdpFramed.poll_complete (E := E) s send with ⟨res, s1⟩
  rw [hp] at hpc
  cases res with
  | error e => simpa [UdpFramed.close, hp] using hpc
  | ok a => cases a <;> simpa [UdpFramed.close, hp] using hpc

/-- `poll` preserves the invariant (it never touches the send side). -/
theorem poll_preserves_inv {I E : Type} (s : UdpFramed) (recv : RecvFromResult)
    (d : List Nat → Except E (Option I) × List Nat) (liftErr : IoError → E)
    (h : s.flushed = true → s.wr = []) :
    (UdpFramed.poll s recv d liftErr).2.flushed = true →
      (UdpFramed.poll s recv d liftErr).2.wr = [] := by
  have hw := (poll_preserves_send_state s recv d liftErr).1
  have hfl := (poll_preserves_send_state s recv d liftErr).2.2.1
  intro hc
  rw [hw]
  exact h (by rw [← hfl]; exact hc)

/-- C8 amended: on every state reachable by driven operations with encoders
that leave the send buffer unchanged when they fail, `flushed = true` implies
the send buffer is empty. -/
theorem flushed_empty_invariant_reachable (s : UdpFramed) (h : Reachable s) :
    s.flushed = true → s.wr = [] := by
  induction h with
  | refl => intro _; rfl
  | tail _ hstep ih =>
      cases hstep with
      | poll => exact poll_preserves_inv _ _ _ _ ih
      | start_send => exact start_send_preserves_inv _ _ _ _ (by assumption) ih
      | poll_complete => exact poll_complete_preserves_inv _ _ ih
      | close => exact close_preserves_inv _ _ ih

/-- Witness for the amended C8 on the concrete reachable state obtained by
submitting frame 1 to `addrA` and completing the flush with `Ready(1)`. -/
theorem flushed_empty_invariant_witness :
    (UdpFramed.poll_complete (E := Nat)
        (UdpFramed.start_send UdpFramed.new ((1 : Nat), addrA) .notReady encOk).2
        (.ready 1)).2.wr = [] :=
  flushed_empty_invariant_reachable _
    (Relation.ReflTransGen.tail
      (Relation.ReflTransGen.single
        (Step.start_send UdpFramed.new ((1 : Nat), addrA) .notReady encOk
          (by intro f b e hc; simp [encOk] at hc)))
      (Step.poll_complete _ (.ready 1)))
    rfl

/-- The state reached by submitting frame 1 to `addrA` on a fresh adapter
(accepted; the socket is not consulted since `flushed` is true). -/
def afterFirstFrame : UdpFramed :=
  (UdpFramed.start_send UdpFramed.new ((1 : Nat), addrA) .notReady encOk).2

/-- The state after the flush of that frame hits a hard send error: the
frame's bytes stay in the send buffer with `flushed` still false. -/
def afterSendFault : UdpFramed :=
  (UdpFramed.poll_complete (E := Nat) afterFirstFrame (.err hardErr)).2

/-- C8 counterexample.  Both parts of the claimed invariant fail on concrete
runs: (a) a failing encode on a fresh adapter leaves a stray byte in the send
buffer while `flushed` is still true, so "flushed implies empty buffer" is
not preserved by `start_send` for an arbitrary codec; (b) after a hard send
error, submitting frame 2 is accepted (`Ready`) while the buffer ends up
holding the encodings of both frame 1 and frame 2, so "at most one encoded
frame in the buffer" fails as well. -/
theorem sink_invariant_counterexample :
    ((UdpFramed.start_send UdpFramed.new ((5 : Nat), addrA) .notReady
        encAppendErr).2.flushed = true ∧
     (UdpFramed.start_send UdpFramed.new ((5 : Nat), addrA) .notReady
        encAppendErr).2.wr = [9]) ∧
    ((UdpFramed.start_send afterSendFault ((2 : Nat), addrB) (.err hardErr)
        encOk).1 = .ok .ready ∧
     (UdpFramed.start_send afterSendFault ((2 : Nat), addrB) (.err hardErr)
        encOk).2.wr = [1, 2] ∧
     (UdpFramed.start_send afterSendFault ((2 : Nat), addrB) (.err hardErr)
        encOk).2.flushed = false) :=
  ⟨⟨rfl, rfl⟩, rfl, rfl, rfl⟩
